import Mathlib

/-!
# Orbit tab-session manager: a shallow embedding of the core logic

This file embeds the session store and session reconciler of the Orbit
browser extension (`background.js`, `popup.js`) in Lean and proves the
testable properties stated in the specification.

Two levels of modelling are used:

* a typed level, where the persisted `Session` records have the shape
  the data model prescribes (`{ id, name, createdAt, tabs }` with
  `tabs : List TabRecord`); the store operations `saveSession`,
  `restoreSession`, `updateSession`, `deleteSession`, `renameSession`,
  `getSessions`, `exportSessions` are translated at this level;
* a dynamic level (`JSValue`), used where the code manipulates
  unvalidated JSON: the `isSafeUrl` predicate (which receives arbitrary
  values) and the whole `importSessions` handler, whose behaviour on
  malformed payloads depends on JavaScript dynamic typing (`typeof`,
  truthiness, property access on `null` throwing `TypeError`).

Every operation returns the store it leaves behind together with an
`Except` result, mirroring the fact that the JavaScript handlers throw
before their first `chrome.storage` write on every validation failure.
Tab-surface effects of `restoreSession` are reified as a list of
`TabEvent`s in the order the code awaits them, and a small operational
model (`windowTrace`) replays them against a window.
-/

namespace Orbit

/-! ## Dynamic (JavaScript) values -/

/-- A JavaScript value, as far as the code observes one: `null`,
`undefined`, booleans, numbers (the code only stores integers),
strings, arrays and plain objects (ordered field lists). -/
inductive JSValue where
  | null
  | undefined
  | boolean (b : Bool)
  | number (n : Int)
  | str (s : String)
  | arr (elements : List JSValue)
  | obj (fields : List (String × JSValue))

/-- The JavaScript `typeof` operator. `typeof null` and `typeof` of an
array are both `"object"`. -/
def jsTypeof : JSValue → String
  | .null => "object"
  | .undefined => "undefined"
  | .boolean _ => "boolean"
  | .number _ => "number"
  | .str _ => "string"
  | .arr _ => "object"
  | .obj _ => "object"

/-- JavaScript truthiness: `null`, `undefined`, `false`, `0` and `""`
are falsy; every array and object is truthy. -/
def truthy : JSValue → Bool
  | .null => false
  | .undefined => false
  | .boolean b => b
  | .number n => n != 0
  | .str s => s != ""
  | .arr _ => true
  | .obj _ => true

/-- First-match lookup in an ordered field list (JavaScript objects
have unique keys, so first match is the match). -/
def objGet : List (String × JSValue) → String → Option JSValue
  | [], _ => none
  | p :: ps, k => if p.1 == k then some p.2 else objGet ps k

/-- Property access `v[k]` in a context where the code has already made
sure `v` is not `null`/`undefined` (otherwise see `getFieldE`).
Absent fields and fields of non-objects read as `undefined`. -/
def getField (v : JSValue) (k : String) : JSValue :=
  match v with
  | .obj fields => (objGet fields k).getD .undefined
  | _ => .undefined

/-- `s.startsWith(pre)` on strings, character by character. -/
def jsStartsWith (s pre : String) : Bool :=
  pre.data.isPrefixOf s.data

/-- `s.trim()`: strip leading and trailing whitespace. -/
def jsTrim (s : String) : String :=
  String.mk (((s.data.dropWhile Char.isWhitespace).reverse.dropWhile Char.isWhitespace).reverse)

/-! ## The safe-URL filter (`isSafeUrl` in background.js) -/

/-- The fixed denylist of internal-scheme prefixes (`blocked` in
`isSafeUrl`). -/
def blocked : List String :=
  ["chrome://", "chrome-extension://", "about:", "edge://", "brave://", "javascript:", "data:"]

/-- `isSafeUrl(url)` from background.js: reject falsy or non-string
values, then reject any URL starting with a blocked prefix. -/
def isSafeUrl (url : JSValue) : Bool :=
  if !(truthy url) || jsTypeof url != "string" then false
  else
    match url with
    | .str s => !(blocked.any (fun p => jsStartsWith s p))
    | _ => false

/-- `isSafeUrl` applied to a value that is statically known to be a
string (the stored-tab case: `session.tabs[i].url`). -/
def isSafeUrlStr (s : String) : Bool :=
  isSafeUrl (.str s)

/-- `isSafeUrl` applied to a possibly-missing string (the live-tab
case: `tab.url` may be `undefined`). -/
def isSafeUrlOpt : Option String → Bool
  | none => isSafeUrl .undefined
  | some s => isSafeUrl (.str s)

/-! ## Typed data model -/

/-- A stored tab record `{ url, title }`. -/
structure TabRecord where
  url : String
  title : String
deriving DecidableEq, Repr

/-- A persisted session record `{ id, name, createdAt, tabs }`. -/
structure Session where
  id : String
  name : String
  createdAt : Int
  tabs : List TabRecord
deriving DecidableEq, Repr

/-- The session collection: a JavaScript object keyed by session id,
modelled as an insertion-ordered association list. -/
abbrev Sessions := List (String × Session)

/-- The persisted state: the `sessions` key and the `activeSessionId`
key of `chrome.storage.local` (absent pointer is `none`). -/
structure Store where
  sessions : Sessions
  activeSessionId : Option String
deriving DecidableEq, Repr

/-- A live tab as returned by `chrome.tabs.query`: its id, and its
possibly-missing url and title. -/
structure LiveTab where
  tabId : Nat
  url : Option String
  title : Option String
deriving DecidableEq, Repr

/-! ## Association-list primitives for the session collection -/

/-- Reading `sessions[id]` (keys are unique in a JavaScript object,
so first match is the match). -/
def findSession : Sessions → String → Option Session
  | [], _ => none
  | p :: ps, id => if p.1 == id then some p.2 else findSession ps id

/-- The assignment `sessions[id] = v`: overwrite in place when the key
exists (JavaScript objects keep the original key position), append
otherwise. -/
def setKey : Sessions → String → Session → Sessions
  | [], id, v => [(id, v)]
  | p :: ps, id, v => if p.1 == id then (id, v) :: ps else p :: setKey ps id v

/-- The statement `delete sessions[id]`. -/
def eraseKey : Sessions → String → Sessions
  | [], _ => []
  | p :: ps, id => if p.1 == id then eraseKey ps id else p :: eraseKey ps id

/-! ## Capturing live tabs (shared by `saveSession` and `updateSession`) -/

/-- `tab.title || tab.url` with a falsy title falling back to the url. -/
def liveTitle (t : LiveTab) : String :=
  match t.title with
  | some s => if s == "" then t.url.getD "" else s
  | none => t.url.getD ""

/-- The capture pipeline
`tabs.filter(t => isSafeUrl(t.url)).map(t => ({url: t.url, title: t.title || t.url}))`. -/
def filterLiveTabs (tabs : List LiveTab) : List TabRecord :=
  (tabs.filter (fun t => isSafeUrlOpt t.url)).map
    (fun t => { url := t.url.getD "", title := liveTitle t })

/-! ## Errors -/

/-- The failures the handlers can produce.  The first five correspond
to the typed errors of the specification (each thrown as a JavaScript
`Error` with the given message); `typeError` is an engine-raised
`TypeError`, e.g. from `Object.entries(null)` or property access on
`null`. -/
inductive OpError where
  | validationError
  | notFoundError
  | noSaveableTabsError
  | noRestorableTabsError
  | invalidFormatError
  | typeError
deriving DecidableEq, Repr

/-- The user-facing message of each thrown error. -/
def OpError.message : OpError → String
  | .validationError => "Session name cannot be empty."
  | .notFoundError => "Session not found."
  | .noSaveableTabsError => "No saveable tabs found in the current window."
  | .noRestorableTabsError => "No restorable tabs in this session."
  | .invalidFormatError => "Invalid import file format."
  | .typeError => "TypeError"

/-! ## Tab-surface events -/

/-- One awaited call on the tab-control surface during a restore:
`chrome.tabs.create({url, active})` or `chrome.tabs.remove(ids)`. -/
inductive TabEvent where
  | create (url : String) (active : Bool)
  | removeTabs (ids : List Nat)
deriving DecidableEq, Repr

/-- The effect of one tab event on a window (a list of `(tabId, url)`
pairs) given the next fresh tab id: creation appends a tab with a fresh
id, removal drops the tabs whose ids are listed. -/
def applyEvent (w : List (Nat × String)) (fresh : Nat) : TabEvent → List (Nat × String) × Nat
  | .create url _ => (w ++ [(fresh, url)], fresh + 1)
  | .removeTabs ids => (w.filter (fun t => !(ids.contains t.1)), fresh)

/-- The sequence of window states observable after each awaited tab
event, starting from window `w`. -/
def windowTrace (w : List (Nat × String)) (fresh : Nat) : List TabEvent → List (List (Nat × String))
  | [] => []
  | e :: es =>
    let p := applyEvent w fresh e
    p.1 :: windowTrace p.1 p.2 es

/-! ## The store operations (typed level)

Each operation takes the relevant pieces of its environment explicitly
(the live tab list where the handler calls `chrome.tabs.query`, the
fresh id and timestamp where it calls `crypto.randomUUID()` and
`Date.now()`) and returns the store it leaves persisted together with
its result.  The handlers throw before their first storage write on
every validation failure, so the error cases return the input store. -/

/-- Environment of `saveSession`: the generated id and timestamp. -/
structure SaveEnv where
  freshId : String
  now : Int
deriving DecidableEq, Repr

/-- `getSessions()`: reads both keys, mutates nothing. -/
def getSessions (st : Store) : Store × Sessions × Option String :=
  (st, st.sessions, st.activeSessionId)

/-- `saveSession(name)`. -/
def saveSession (st : Store) (name : String) (liveTabs : List LiveTab) (env : SaveEnv) :
    Store × Except OpError Session :=
  if jsTrim name == "" then (st, .error .validationError)
  else
    let filteredTabs := filterLiveTabs liveTabs
    if filteredTabs.isEmpty then (st, .error .noSaveableTabsError)
    else
      let s : Session :=
        { id := env.freshId, name := jsTrim name, createdAt := env.now, tabs := filteredTabs }
      ({ st with sessions := setKey st.sessions env.freshId s }, .ok s)

/-- `restoreSession(sessionId, closeCurrentTabs)`.  `currentTabs` is
what `chrome.tabs.query` returns inside the close branch.  The second
component lists the awaited tab-surface calls in program order; the
third is the returned `skipped` count. -/
def restoreSession (st : Store) (sessionId : String) (closeCurrentTabs : Bool)
    (currentTabs : List LiveTab) : Store × List TabEvent × Except OpError Nat :=
  match findSession st.sessions sessionId with
  | none => (st, [], .error .notFoundError)
  | some session =>
    match session.tabs.filter (fun t => isSafeUrlStr t.url) with
    | [] => (st, [], .error .noRestorableTabsError)
    | anchor :: rest =>
      let events :=
        if closeCurrentTabs then
          TabEvent.create anchor.url true ::
            TabEvent.removeTabs (currentTabs.map LiveTab.tabId) ::
            rest.map (fun t => TabEvent.create t.url false)
        else
          (anchor :: rest).map (fun t => TabEvent.create t.url false)
      ({ st with activeSessionId := some sessionId }, events,
        .ok (session.tabs.length - (anchor :: rest).length))

/-- `updateSession(sessionId)`. -/
def updateSession (st : Store) (sessionId : String) (liveTabs : List LiveTab) :
    Store × Except OpError Session :=
  match findSession st.sessions sessionId with
  | none => (st, .error .notFoundError)
  | some s =>
    let filteredTabs := filterLiveTabs liveTabs
    if filteredTabs.isEmpty then (st, .error .noSaveableTabsError)
    else
      let s' := { s with tabs := filteredTabs }
      ({ st with sessions := setKey st.sessions sessionId s' }, .ok s')

/-- `deleteSession(sessionId)`: removes the record and clears the
active-session pointer when it referenced the deleted id. -/
def deleteSession (st : Store) (sessionId : String) : Store × Except OpError Unit :=
  match findSession st.sessions sessionId with
  | none => (st, .error .notFoundError)
  | some _ =>
    ({ sessions := eraseKey st.sessions sessionId,
       activeSessionId :=
         if st.activeSessionId = some sessionId then none else st.activeSessionId },
      .ok ())

/-- `renameSession(sessionId, newName)`. -/
def renameSession (st : Store) (sessionId : String) (newName : String) :
    Store × Except OpError Unit :=
  if jsTrim newName == "" then (st, .error .validationError)
  else
    match findSession st.sessions sessionId with
    | none => (st, .error .notFoundError)
    | some s =>
      ({ st with sessions := setKey st.sessions sessionId { s with name := jsTrim newName } },
        .ok ())

/-- `exportSessions()`: returns the collection verbatim, mutates
nothing. -/
def exportSessions (st : Store) : Store × Sessions :=
  (st, st.sessions)

/-! ## The import handler (dynamic level)

`importSessions(data)` receives a parsed JSON document and inspects it
with dynamic checks, so it is modelled over `JSValue`.  The persisted
collection is likewise an ordered association of ids to `JSValue`
records here.  Property access on `null`/`undefined` and
`Object.entries(null)` raise `TypeError`, which aborts the handler
before its single `writeSessions` call. -/

/-- Property access `v[k]` as the engine performs it: throws
`TypeError` on `null`/`undefined`, reads `undefined` off primitives
and absent keys. -/
def getFieldE (v : JSValue) (k : String) : Except OpError JSValue :=
  match v with
  | .null => .error .typeError
  | .undefined => .error .typeError
  | .obj fields => .ok ((objGet fields k).getD .undefined)
  | _ => .ok .undefined

/-- `Object.entries(v)`: throws on `null`/`undefined`; arrays enumerate
as index-keyed entries; strings enumerate their characters; other
primitives have no own enumerable properties. -/
def objectEntries : JSValue → Except OpError (List (String × JSValue))
  | .null => .error .typeError
  | .undefined => .error .typeError
  | .obj fields => .ok fields
  | .arr xs => .ok (xs.enum.map (fun p => (toString p.1, p.2)))
  | .str s => .ok (s.toList.enum.map (fun p => (toString p.1, JSValue.str (String.singleton p.2))))
  | _ => .ok []

/-- `session.tabs.filter(tab => typeof tab.url === "string" && isSafeUrl(tab.url))`:
each element's `url` property is read (throwing on a `null` element). -/
def filterTabsE : List JSValue → Except OpError (List JSValue)
  | [] => .ok []
  | tab :: rest =>
    match getFieldE tab "url" with
    | .error e => .error e
    | .ok u =>
      match filterTabsE rest with
      | .error e => .error e
      | .ok kept =>
        .ok (if jsTypeof u == "string" && isSafeUrl u then tab :: kept else kept)

/-- The object literal `{ ...session, tabs: safeTabs }`: all fields of
`session` in order, with the value at key `"tabs"` replaced (its
original position kept), appended if absent. -/
def spreadSetTabs (session : JSValue) (tabs : JSValue) : JSValue :=
  match session with
  | .obj fields =>
    if fields.any (fun p => p.1 == "tabs") then
      .obj (fields.map (fun p => if p.1 == "tabs" then ("tabs", tabs) else p))
    else
      .obj (fields ++ [("tabs", tabs)])
  | v => v

/-- The body of the `for (const [id, session] of Object.entries(...))`
loop for one entry: skip if the id is already present (truthiness of
`existing[id]`), skip if the record fails structural validation,
otherwise insert the record with safe-filtered tabs and count it. -/
def importEntry (acc : List (String × JSValue) × Nat) (entry : String × JSValue) :
    Except OpError (List (String × JSValue) × Nat) :=
  if truthy ((objGet acc.1 entry.1).getD .undefined) then .ok acc
  else
    match getFieldE entry.2 "id" with
    | .error e => .error e
    | .ok vid =>
      if jsTypeof vid != "string" then .ok acc
      else
        match getFieldE entry.2 "name" with
        | .error e => .error e
        | .ok vname =>
          if jsTypeof vname != "string" then .ok acc
          else
            match getFieldE entry.2 "createdAt" with
            | .error e => .error e
            | .ok vcreated =>
              if jsTypeof vcreated != "number" then .ok acc
              else
                match getFieldE entry.2 "tabs" with
                | .error e => .error e
                | .ok (.arr tabs) =>
                  match filterTabsE tabs with
                  | .error e => .error e
                  | .ok safe =>
                    .ok (acc.1 ++ [(entry.1, spreadSetTabs entry.2 (.arr safe))], acc.2 + 1)
                | .ok _ => .ok acc

/-- The whole entries loop. -/
def importLoop (acc : List (String × JSValue) × Nat) :
    List (String × JSValue) → Except OpError (List (String × JSValue) × Nat)
  | [] => .ok acc
  | e :: es =>
    match importEntry acc e with
    | .error err => .error err
    | .ok next => importLoop next es

/-- `importSessions(data)` over the dynamic collection
`existing`: the top-level shape guard
`!data || typeof data !== "object" || typeof data.sessions !== "object"`,
then the merge loop, then a single write.  The returned collection is
the one left persisted (unchanged whenever the handler throws). -/
def importSessionsJS (existing : List (String × JSValue)) (data : JSValue) :
    List (String × JSValue) × Except OpError Nat :=
  if !(truthy data) || jsTypeof data != "object"
      || jsTypeof (getField data "sessions") != "object" then
    (existing, .error .invalidFormatError)
  else
    match objectEntries (getField data "sessions") with
    | .error e => (existing, .error e)
    | .ok entries =>
      match importLoop (existing, 0) entries with
      | .error e => (existing, .error e)
      | .ok acc => (acc.1, .ok acc.2)

/-- `importSessions` restricted to payloads of well-typed session
records, used for the step relation on the typed store: the structural
validation of the loop is identically true on such records, so each
entry is either skipped because its id already exists or inserted with
safe-filtered tabs. -/
def importSessionsTyped (st : Store) (payload : List (String × Session)) :
    Store × Except OpError Nat :=
  let merged := payload.foldl
    (fun (acc : Sessions × Nat) (p : String × Session) =>
      if acc.1.any (fun q => q.1 == p.1) then acc
      else
        (acc.1 ++ [(p.1, { p.2 with tabs := p.2.tabs.filter (fun t => isSafeUrlStr t.url) })],
          acc.2 + 1))
    (st.sessions, 0)
  ({ st with sessions := merged.1 }, .ok merged.2)

/-! ## The export payload

The popup wraps the exported collection as `{ sessions: ... }` and
serialises it; a typed record serialises to the corresponding
`JSValue`. -/

/-- JSON shape of a stored tab record. -/
def encodeTab (t : TabRecord) : JSValue :=
  .obj [("url", .str t.url), ("title", .str t.title)]

/-- JSON shape of a stored session record. -/
def encodeSession (s : Session) : JSValue :=
  .obj [("id", .str s.id), ("name", .str s.name),
        ("createdAt", .number s.createdAt), ("tabs", .arr (s.tabs.map encodeTab))]

/-- The file produced by the popup's export: `{ sessions: <collection> }`. -/
def exportPayload (coll : Sessions) : JSValue :=
  .obj [("sessions", .obj (coll.map (fun p => (p.1, encodeSession p.2))))]

/-! ## Activity classification (popup.js, `buildSessionCard`) -/

/-- The tabs-match test of `buildSessionCard`:
`session.tabs.length > 0 && session.tabs.length === currentUrls.size &&
session.tabs.every(tab => currentUrls.has(tab.url))`, where
`currentUrls` is the set of live URLs. -/
def tabsMatch (sessionTabs : List TabRecord) (currentUrls : Finset String) : Bool :=
  decide (0 < sessionTabs.length) &&
  decide (sessionTabs.length = currentUrls.card) &&
  sessionTabs.all (fun t => decide (t.url ∈ currentUrls))

/-- The four mutually exclusive activity classes of a session card. -/
inductive ActivityClass where
  | clean
  | modified
  | exact
  | inactive
deriving DecidableEq, Repr

/-- The classification computed by `buildSessionCard` from `isTracked`
(`session.id === activeSessionId`) and the tabs-match test. -/
def classify (session : Session) (currentUrls : Finset String)
    (activeSessionId : Option String) : ActivityClass :=
  let isTracked : Bool := activeSessionId == some session.id
  let m : Bool := tabsMatch session.tabs currentUrls
  if isTracked && m then .clean
  else if isTracked && !m then .modified
  else if !isTracked && m then .exact
  else .inactive

/-- The set of URLs of a stored tab list, for comparing against the
live URL set. -/
def storedUrlSet (tabs : List TabRecord) : Finset String :=
  (tabs.map TabRecord.url).toFinset

/-! ## The store as a transition system -/

/-- Referential integrity of the Active Session Pointer: it is absent
or points to a session present in the collection. -/
def pointerOk (st : Store) : Prop :=
  ∀ id, st.activeSessionId = some id → (findSession st.sessions id).isSome

/-- One caller-visible operation of the Session Store, as a relation
between the persisted state before and after the call (a failing call
leaves the state unchanged, which is the store the operations
return). -/
inductive Step : Store → Store → Prop where
  | getAll (st : Store) : Step st (getSessions st).1
  | save (st : Store) (name : String) (live : List LiveTab) (env : SaveEnv) :
      Step st (saveSession st name live env).1
  | restore (st : Store) (id : String) (close : Bool) (cur : List LiveTab) :
      Step st (restoreSession st id close cur).1
  | update (st : Store) (id : String) (live : List LiveTab) :
      Step st (updateSession st id live).1
  | del (st : Store) (id : String) : Step st (deleteSession st id).1
  | rename (st : Store) (id : String) (n : String) : Step st (renameSession st id n).1
  | exportAll (st : Store) : Step st (exportSessions st).1
  | importMerge (st : Store) (payload : List (String × Session)) :
      Step st (importSessionsTyped st payload).1

/-- States reachable from the uninitialised store (empty collection,
no active pointer) by store operations. -/
def Reachable (st : Store) : Prop :=
  Relation.ReflTransGen Step ⟨[], none⟩ st

/-! ## The safe-URL filter: characterization and idempotence (C9) -/

/-- Claim C9: the safe-filter keeps a tab exactly when its URL is a
non-empty string beginning with none of the denylisted prefixes, and
filtering a tab list is idempotent (stored tabs and live tabs alike). -/
theorem safe_filter_spec :
    (∀ v : JSValue, isSafeUrl v = true ↔
      ∃ s : String, v = JSValue.str s ∧ s ≠ "" ∧ ∀ p ∈ blocked, ¬ p.data <+: s.data) ∧
    (∀ tabs : List TabRecord,
      (tabs.filter (fun t => isSafeUrlStr t.url)).filter (fun t => isSafeUrlStr t.url) =
        tabs.filter (fun t => isSafeUrlStr t.url)) ∧
    (∀ tabs : List LiveTab,
      (tabs.filter (fun t => isSafeUrlOpt t.url)).filter (fun t => isSafeUrlOpt t.url) =
        tabs.filter (fun t => isSafeUrlOpt t.url)) := by
  refine ⟨?_, ?_, ?_⟩
  · intro v
    cases v <;>
      simp [isSafeUrl, truthy, jsTypeof, jsStartsWith, List.isPrefixOf_iff_prefix]
  · intro tabs
    rw [List.filter_filter]
    simp
  · intro tabs
    rw [List.filter_filter]
    simp

/-! ## The tabs-match test and activity classification (C1, C3) -/

/-- The tabs-match test spelled out: non-empty stored list, stored
length equal to live set cardinality, every stored URL live. -/
lemma tabsMatch_eq_true_iff (tabs : List TabRecord) (urls : Finset String) :
    tabsMatch tabs urls = true ↔
      tabs ≠ [] ∧ tabs.length = urls.card ∧ ∀ t ∈ tabs, t.url ∈ urls := by
  simp [tabsMatch, List.all_eq_true, List.length_pos, and_assoc]

/-- On duplicate-free stored tab lists the tabs-match test is exactly
set equality of URLs. -/
lemma tabsMatch_iff_of_nodup (tabs : List TabRecord) (urls : Finset String)
    (hnd : (tabs.map TabRecord.url).Nodup) :
    tabsMatch tabs urls = true ↔ tabs ≠ [] ∧ storedUrlSet tabs = urls := by
  rw [tabsMatch_eq_true_iff]
  constructor
  · rintro ⟨hne, hlen, hmem⟩
    refine ⟨hne, ?_⟩
    have hsub : storedUrlSet tabs ⊆ urls := by
      intro x hx
      rw [storedUrlSet, List.mem_toFinset, List.mem_map] at hx
      obtain ⟨t, ht, rfl⟩ := hx
      exact hmem t ht
    have hcard : (storedUrlSet tabs).card = tabs.length := by
      rw [storedUrlSet, List.toFinset_card_of_nodup hnd, List.length_map]
    exact Finset.eq_of_subset_of_card_le hsub (by rw [hcard]; omega)
  · rintro ⟨hne, hset⟩
    refine ⟨hne, ?_, ?_⟩
    · rw [← hset, storedUrlSet, List.toFinset_card_of_nodup hnd, List.length_map]
    · intro t ht
      rw [← hset, storedUrlSet, List.mem_toFinset, List.mem_map]
      exact ⟨t, ht, rfl⟩

/-- Claim C1, counterexample: a session whose stored tabs are
`[A, A]` has URL set `{A}` but does not pass the tabs-match test
against a live window whose URL set is `{A}` — the test compares the
stored list length (2) with the live set size (1), so duplicate count
does affect the outcome. -/
theorem tabsMatch_counterexample :
    storedUrlSet [⟨"https://a.com", "A"⟩, ⟨"https://a.com", "A"⟩] =
      ({"https://a.com"} : Finset String) ∧
    tabsMatch [⟨"https://a.com", "A"⟩, ⟨"https://a.com", "A"⟩] {"https://a.com"} = false :=
  ⟨by decide, by decide⟩

/-- Claim C1 (amended): the tabs-match test holds iff the stored tab
list is non-empty, its length equals the number of distinct live URLs,
and every stored URL is live; when the stored tab list is
duplicate-free this is exactly set equality of URLs (order ignored,
titles never compared). -/
theorem tabsMatch_characterization (tabs : List TabRecord) (urls : Finset String) :
    (tabsMatch tabs urls = true ↔
      tabs ≠ [] ∧ tabs.length = urls.card ∧ ∀ t ∈ tabs, t.url ∈ urls) ∧
    ((tabs.map TabRecord.url).Nodup →
      (tabsMatch tabs urls = true ↔ tabs ≠ [] ∧ storedUrlSet tabs = urls)) :=
  ⟨tabsMatch_eq_true_iff tabs urls, fun hnd => tabsMatch_iff_of_nodup tabs urls hnd⟩

/-- Witness for `tabsMatch_characterization` at a concrete
duplicate-free input. -/
theorem tabsMatch_characterization_witness :
    ([(⟨"https://a.com", "A"⟩ : TabRecord)].map TabRecord.url).Nodup ∧
    (tabsMatch [⟨"https://a.com", "A"⟩] {"https://a.com"} = true ↔
      [(⟨"https://a.com", "A"⟩ : TabRecord)] ≠ [] ∧
      storedUrlSet [⟨"https://a.com", "A"⟩] = {"https://a.com"}) :=
  ⟨by decide,
    (tabsMatch_characterization [⟨"https://a.com", "A"⟩] {"https://a.com"}).2 (by decide)⟩

/-- Claim C3, counterexample: with the Active Session Pointer on `s1`
and the live URL set `{A}` equal to `s1`'s stored URL set, `s1` still
classifies as Modified (not Clean), because its stored tab list
`[A, A]` has length 2 while the live set has size 1. -/
theorem classify_counterexample :
    storedUrlSet [⟨"https://a.com", "A"⟩, ⟨"https://a.com", "A"⟩] =
      ({"https://a.com"} : Finset String) ∧
    classify ⟨"s1", "Work", 0, [⟨"https://a.com", "A"⟩, ⟨"https://a.com", "A"⟩]⟩
      {"https://a.com"} (some "s1") = .modified :=
  ⟨by decide, by decide⟩

/-- Claim C3 (amended): when the pointed-to session `S` has a
duplicate-free, non-empty stored tab list whose URL set equals the
live set, `S` classifies as Clean; any other session with a
duplicate-free, non-empty stored tab list of the same URL set
classifies as Exact, never Clean; and a session with an empty stored
tab list never classifies as Clean or Exact, for every live URL set
(the empty one included) and every pointer. -/
theorem classify_clean_exact (S T : Session) (live : Finset String) :
    ((S.tabs.map TabRecord.url).Nodup → S.tabs ≠ [] → storedUrlSet S.tabs = live →
      classify S live (some S.id) = .clean ∧
      (T.id ≠ S.id → (T.tabs.map TabRecord.url).Nodup → T.tabs ≠ [] →
        storedUrlSet T.tabs = live →
        classify T live (some S.id) = .exact ∧ classify T live (some S.id) ≠ .clean)) ∧
    (∀ (U : Session) (act : Option String), U.tabs = [] →
      classify U live act ≠ .clean ∧ classify U live act ≠ .exact) := by
  constructor
  · intro hnd hne hset
    have hm : tabsMatch S.tabs live = true := (tabsMatch_iff_of_nodup _ _ hnd).2 ⟨hne, hset⟩
    refine ⟨by simp [classify, hm], ?_⟩
    intro hTne hTnd hTne2 hTset
    have hmT : tabsMatch T.tabs live = true := (tabsMatch_iff_of_nodup _ _ hTnd).2 ⟨hTne2, hTset⟩
    have htr : (some S.id == some T.id) = false := by
      simp [Ne.symm hTne]
    constructor
    · simp [classify, hmT, htr]
    · simp [classify, hmT, htr]
  · intro U act hU
    have hmU : tabsMatch U.tabs live = false := by
      simp [tabsMatch, hU]
    cases h : (act == some U.id) <;> simp [classify, hmU, h]

/-- Witness for `classify_clean_exact`: a concrete Clean session, and
an empty-tab session that is neither Clean nor Exact against the empty
live URL set even while the pointer names it. -/
theorem classify_clean_exact_witness :
    classify ⟨"s1", "Work", 0, [⟨"https://a.com", "A"⟩]⟩ {"https://a.com"} (some "s1") =
      .clean ∧
    classify ⟨"s3", "Empty", 2, []⟩ (∅ : Finset String) (some "s3") ≠ .clean ∧
    classify ⟨"s3", "Empty", 2, []⟩ (∅ : Finset String) (some "s3") ≠ .exact :=
  ⟨(((classify_clean_exact ⟨"s1", "Work", 0, [⟨"https://a.com", "A"⟩]⟩
      ⟨"s2", "Home", 1, [⟨"https://a.com", "A"⟩]⟩ {"https://a.com"}).1
      (by decide) (by decide) (by decide)).1),
    ((classify_clean_exact ⟨"s1", "Work", 0, [⟨"https://a.com", "A"⟩]⟩
      ⟨"s2", "Home", 1, [⟨"https://a.com", "A"⟩]⟩ (∅ : Finset String)).2
      ⟨"s3", "Empty", 2, []⟩ (some "s3") rfl).1,
    ((classify_clean_exact ⟨"s1", "Work", 0, [⟨"https://a.com", "A"⟩]⟩
      ⟨"s2", "Home", 1, [⟨"https://a.com", "A"⟩]⟩ (∅ : Finset String)).2
      ⟨"s3", "Empty", 2, []⟩ (some "s3") rfl).2⟩

/-! ## Lookup lemmas for the session collection -/

lemma findSession_setKey (ss : Sessions) (id : String) (v : Session) :
    findSession (setKey ss id v) id = some v := by
  induction ss with
  | nil => simp [setKey, findSession]
  | cons p ps ih =>
    by_cases h : p.1 = id
    · simp [setKey, findSession, h]
    · simp [setKey, findSession, h, ih]

lemma findSession_setKey_ne (ss : Sessions) (id id' : String) (v : Session)
    (h : id' ≠ id) :
    findSession (setKey ss id v) id' = findSession ss id' := by
  induction ss with
  | nil => simp [setKey, findSession, Ne.symm h]
  | cons p ps ih =>
    by_cases hp : p.1 = id
    · simp [setKey, findSession, hp, Ne.symm h]
    · by_cases hp' : p.1 = id'
      · simp [setKey, findSession, hp, hp', h]
      · simp [setKey, findSession, hp, hp', ih]

lemma findSession_eraseKey (ss : Sessions) (id : String) :
    findSession (eraseKey ss id) id = none := by
  induction ss with
  | nil => simp [eraseKey, findSession]
  | cons p ps ih =>
    by_cases h : p.1 = id
    · simp [eraseKey, h, ih]
    · simp [eraseKey, findSession, h, ih]

lemma findSession_eraseKey_ne (ss : Sessions) (id id' : String) (h : id' ≠ id) :
    findSession (eraseKey ss id) id' = findSession ss id' := by
  induction ss with
  | nil => simp [eraseKey]
  | cons p ps ih =>
    by_cases hp : p.1 = id
    · have hpd : p.1 ≠ id' := by rw [hp]; exact Ne.symm h
      simp [eraseKey, findSession, hp, hpd, Ne.symm h, ih]
    · by_cases hp' : p.1 = id'
      · simp [eraseKey, findSession, hp, hp', h]
      · simp [eraseKey, findSession, hp, hp', ih]

/-! ## The restore contract (C4) -/

/-- Claim C4: `restoreSession` fails with `notFoundError` on an
unknown id, with `noRestorableTabsError` when the safe-filter of the
stored tabs is empty; on success it sets the Active Session Pointer to
the id and returns the stored tab count minus the safe tab count. -/
theorem restore_contract (st : Store) (id : String) (close : Bool)
    (current : List LiveTab) :
    (findSession st.sessions id = none →
      restoreSession st id close current = (st, [], .error .notFoundError)) ∧
    (∀ s, findSession st.sessions id = some s →
      (s.tabs.filter (fun t => isSafeUrlStr t.url) = [] →
        restoreSession st id close current = (st, [], .error .noRestorableTabsError)) ∧
      (s.tabs.filter (fun t => isSafeUrlStr t.url) ≠ [] →
        (restoreSession st id close current).1 = { st with activeSessionId := some id } ∧
        (restoreSession st id close current).2.2 =
          .ok (s.tabs.length - (s.tabs.filter (fun t => isSafeUrlStr t.url)).length))) := by
  refine ⟨?_, ?_⟩
  · intro h
    simp [restoreSession, h]
  · intro s hs
    refine ⟨?_, ?_⟩
    · intro hf
      simp [restoreSession, hs, hf]
    · intro hf
      obtain ⟨a, rest, hfilter⟩ := List.exists_cons_of_ne_nil hf
      simp [restoreSession, hs, hfilter]

/-- Witness for `restore_contract` on a one-session store whose single
tab is restorable. -/
theorem restore_contract_witness :
    (findSession [("a", ⟨"a", "N", 0, [⟨"https://a.com", "A"⟩]⟩)] "a" =
      some ⟨"a", "N", 0, [⟨"https://a.com", "A"⟩]⟩) ∧
    ((⟨"a", "N", 0, [⟨"https://a.com", "A"⟩]⟩ : Session).tabs.filter
      (fun t => isSafeUrlStr t.url) ≠ []) ∧
    ((restoreSession ⟨[("a", ⟨"a", "N", 0, [⟨"https://a.com", "A"⟩]⟩)], none⟩ "a" false []).1 =
      { sessions := [("a", ⟨"a", "N", 0, [⟨"https://a.com", "A"⟩]⟩)],
        activeSessionId := some "a" } ∧
     (restoreSession ⟨[("a", ⟨"a", "N", 0, [⟨"https://a.com", "A"⟩]⟩)], none⟩ "a" false []).2.2 =
      .ok 0) :=
  ⟨by decide, by decide,
    ((restore_contract ⟨[("a", ⟨"a", "N", 0, [⟨"https://a.com", "A"⟩]⟩)], none⟩ "a" false []).2
      ⟨"a", "N", 0, [⟨"https://a.com", "A"⟩]⟩ (by decide)).2 (by decide)⟩

/-! ## The update contract and frame condition (C7) -/

/-- Claim C7: `updateSession` fails with `notFoundError` on an unknown
id and with `noSaveableTabsError` when no live tab survives the
safe-filter; on success it replaces only the `tabs` field of the
addressed session (id, name, createdAt untouched), leaves every other
session unchanged, and leaves the Active Session Pointer unchanged. -/
theorem update_contract (st : Store) (id : String) (live : List LiveTab) :
    (findSession st.sessions id = none →
      updateSession st id live = (st, .error .notFoundError)) ∧
    (∀ s, findSession st.sessions id = some s →
      (filterLiveTabs live = [] →
        updateSession st id live = (st, .error .noSaveableTabsError)) ∧
      (filterLiveTabs live ≠ [] →
        (updateSession st id live).2 = .ok { s with tabs := filterLiveTabs live } ∧
        findSession (updateSession st id live).1.sessions id =
          some { s with tabs := filterLiveTabs live } ∧
        (updateSession st id live).1.activeSessionId = st.activeSessionId ∧
        ∀ id', id' ≠ id →
          findSession (updateSession st id live).1.sessions id' =
            findSession st.sessions id')) := by
  refine ⟨?_, ?_⟩
  · intro h
    simp [updateSession, h]
  · intro s hs
    refine ⟨?_, ?_⟩
    · intro hf
      simp [updateSession, hs, hf]
    · intro hf
      have hne : (filterLiveTabs live).isEmpty = false := by
        cases hfe : filterLiveTabs live with
        | nil => exact absurd hfe hf
        | cons a l => simp [List.isEmpty]
      refine ⟨?_, ?_, ?_, ?_⟩
      · simp [updateSession, hs, hne]
      · simp [updateSession, hs, hne, findSession_setKey]
      · simp [updateSession, hs, hne]
      · intro id' hid'
        simp [updateSession, hs, hne, findSession_setKey_ne _ _ _ _ hid']

/-- Witness for `update_contract`, replacing one stored tab. -/
theorem update_contract_witness :
    (findSession [("a", ⟨"a", "N", 0, [⟨"https://old.com", "O"⟩]⟩)] "a" =
      some ⟨"a", "N", 0, [⟨"https://old.com", "O"⟩]⟩) ∧
    (filterLiveTabs [⟨1, some "https://new.com", some "New"⟩] ≠ []) ∧
    ((updateSession ⟨[("a", ⟨"a", "N", 0, [⟨"https://old.com", "O"⟩]⟩)], none⟩ "a"
        [⟨1, some "https://new.com", some "New"⟩]).2 =
      .ok ⟨"a", "N", 0, [⟨"https://new.com", "New"⟩]⟩) :=
  ⟨by decide, by decide,
    (((update_contract ⟨[("a", ⟨"a", "N", 0, [⟨"https://old.com", "O"⟩]⟩)], none⟩ "a"
        [⟨1, some "https://new.com", some "New"⟩]).2
      ⟨"a", "N", 0, [⟨"https://old.com", "O"⟩]⟩ (by decide)).2 (by decide)).1⟩

/-! ## Error atomicity (C10) -/

/-- Claim C10: whenever a store operation fails, the store it leaves
behind is exactly the store it was given — every validation check
precedes the first storage write (and a failed restore performs no tab
operation either). -/
theorem error_atomicity (st : Store) :
    (∀ name live env e, (saveSession st name live env).2 = .error e →
      (saveSession st name live env).1 = st) ∧
    (∀ id live e, (updateSession st id live).2 = .error e →
      (updateSession st id live).1 = st) ∧
    (∀ id n e, (renameSession st id n).2 = .error e →
      (renameSession st id n).1 = st) ∧
    (∀ id close cur e, (restoreSession st id close cur).2.2 = .error e →
      (restoreSession st id close cur).1 = st ∧ (restoreSession st id close cur).2.1 = []) ∧
    (∀ id e, (deleteSession st id).2 = .error e →
      (deleteSession st id).1 = st) ∧
    (∀ ex data e, (importSessionsJS ex data).2 = .error e →
      (importSessionsJS ex data).1 = ex) := by
  refine ⟨?_, ?_, ?_, ?_, ?_, ?_⟩
  · intro name live env e
    dsimp only [saveSession]
    split
    · intro _; rfl
    · split
      · intro _; rfl
      · intro h; simp at h
  · intro id live e
    dsimp only [updateSession]
    split
    · intro _; rfl
    · split
      · intro _; rfl
      · intro h; simp at h
  · intro id n e
    dsimp only [renameSession]
    split
    · intro _; rfl
    · split
      · intro _; rfl
      · intro h; simp at h
  · intro id close cur e
    dsimp only [restoreSession]
    split
    · intro _; exact ⟨rfl, rfl⟩
    · split
      · intro _; exact ⟨rfl, rfl⟩
      · intro h; simp at h
  · intro id e
    dsimp only [deleteSession]
    split
    · intro _; rfl
    · intro h; simp at h
  · intro ex data e
    dsimp only [importSessionsJS]
    split
    · intro _; rfl
    · split
      · intro _; rfl
      · split
        · intro _; rfl
        · intro h; simp at h

/-- Witness for `error_atomicity`: a save with an empty name leaves
the empty store untouched. -/
theorem error_atomicity_witness :
    (saveSession ⟨[], none⟩ "" [] ⟨"id1", 0⟩).1 = (⟨[], none⟩ : Store) :=
  (error_atomicity ⟨[], none⟩).1 "" [] ⟨"id1", 0⟩ .validationError rfl

/-! ## Restore-with-close never empties the window (C2) -/

lemma windowTrace_creates_nonempty (ts : List TabRecord) :
    ∀ (w : List (Nat × String)) (f : Nat), w ≠ [] →
      ∀ x ∈ windowTrace w f (ts.map (fun t => TabEvent.create t.url false)), x ≠ [] := by
  induction ts with
  | nil =>
    intro w f hw x hx
    simp [windowTrace] at hx
  | cons t ts ih =>
    intro w f hw x hx
    simp only [List.map_cons, windowTrace, applyEvent] at hx
    rcases List.mem_cons.mp hx with h | h
    · subst h; simp
    · exact ih (w ++ [(f, t.url)]) (f + 1) (by simp) x h

/-- Claim C2: a successful `restoreSession(id, true)` first creates
the session's first safe tab as the active tab, then removes every tab
that existed before the operation began, then creates the remaining
safe tabs in order, none active; replaying those events (with fresh
tab ids) shows the window is non-empty after every awaited step, for
safe tab lists of any positive length. -/
theorem restore_close_sequencing (st : Store) (id : String) (current : List LiveTab)
    (fresh : Nat) (s : Session) (anchor : TabRecord) (rest : List TabRecord)
    (hfind : findSession st.sessions id = some s)
    (hsafe : s.tabs.filter (fun t => isSafeUrlStr t.url) = anchor :: rest)
    (hfresh : ∀ t ∈ current, t.tabId < fresh) :
    (restoreSession st id true current).2.1 =
      TabEvent.create anchor.url true ::
        TabEvent.removeTabs (current.map LiveTab.tabId) ::
        rest.map (fun t => TabEvent.create t.url false) ∧
    ∀ w ∈ windowTrace (current.map (fun t => (t.tabId, t.url.getD ""))) fresh
        (restoreSession st id true current).2.1, w ≠ [] := by
  have hev : (restoreSession st id true current).2.1 =
      TabEvent.create anchor.url true ::
        TabEvent.removeTabs (current.map LiveTab.tabId) ::
        rest.map (fun t => TabEvent.create t.url false) := by
    simp [restoreSession, hfind, hsafe]
  refine ⟨hev, ?_⟩
  rw [hev]
  intro w hw
  have hanchor :
      (fresh, anchor.url) ∈
        ((current.map (fun t => (t.tabId, t.url.getD ""))) ++ [(fresh, anchor.url)]).filter
          (fun t => !((current.map LiveTab.tabId).contains t.1)) := by
    rw [List.mem_filter]
    refine ⟨by simp, ?_⟩
    simp only [Bool.not_eq_eq_eq_not, Bool.not_true, List.elem_eq_mem, decide_eq_false_iff_not,
      List.mem_map]
    rintro ⟨t, ht, htid⟩
    have := hfresh t ht
    omega
  simp only [windowTrace, applyEvent] at hw
  rcases List.mem_cons.mp hw with h1 | hw
  · subst h1; simp
  rcases List.mem_cons.mp hw with h2 | hw
  · subst h2
    exact List.ne_nil_of_mem hanchor
  · exact windowTrace_creates_nonempty rest _ _ (List.ne_nil_of_mem hanchor) w hw

/-- Witness for `restore_close_sequencing`: a two-tab session restored
over a one-tab window. -/
theorem restore_close_sequencing_witness :
    (restoreSession
        ⟨[("a", ⟨"a", "N", 0, [⟨"https://a.com", "A"⟩, ⟨"https://b.com", "B"⟩]⟩)], none⟩
        "a" true [⟨0, some "https://x.com", none⟩]).2.1 =
      TabEvent.create "https://a.com" true ::
        TabEvent.removeTabs [0] ::
        [(⟨"https://b.com", "B"⟩ : TabRecord)].map (fun t => TabEvent.create t.url false) ∧
    ∀ w ∈ windowTrace
        ([(⟨0, some "https://x.com", none⟩ : LiveTab)].map (fun t => (t.tabId, t.url.getD "")))
        1
        (restoreSession
          ⟨[("a", ⟨"a", "N", 0, [⟨"https://a.com", "A"⟩, ⟨"https://b.com", "B"⟩]⟩)], none⟩
          "a" true [⟨0, some "https://x.com", none⟩]).2.1, w ≠ [] :=
  restore_close_sequencing
    ⟨[("a", ⟨"a", "N", 0, [⟨"https://a.com", "A"⟩, ⟨"https://b.com", "B"⟩]⟩)], none⟩
    "a" [⟨0, some "https://x.com", none⟩] 1
    ⟨"a", "N", 0, [⟨"https://a.com", "A"⟩, ⟨"https://b.com", "B"⟩]⟩
    ⟨"https://a.com", "A"⟩ [⟨"https://b.com", "B"⟩]
    (by decide) (by decide) (by decide)

end Orbit

namespace Orbit

/-! ## Import guard and abort behaviour (C5) -/

lemma getFieldE_error (v : JSValue) (k : String) (e : OpError)
    (h : getFieldE v k = .error e) : e = .typeError := by
  cases v <;> simp [getFieldE] at h <;> exact h.symm

lemma filterTabsE_error (ts : List JSValue) (e : OpError)
    (h : filterTabsE ts = .error e) : e = .typeError := by
  induction ts generalizing e with
  | nil => simp [filterTabsE] at h
  | cons t ts ih =>
    rw [filterTabsE] at h
    split at h
    · rename_i e' heq
      simp at h
      subst h
      exact getFieldE_error _ _ _ heq
    · split at h
      · rename_i e' heq
        simp at h
        subst h
        exact ih _ heq
      · simp at h

lemma importEntry_error (acc : List (String × JSValue) × Nat) (entry : String × JSValue)
    (e : OpError) (h : importEntry acc entry = .error e) : e = .typeError := by
  rw [importEntry] at h
  split at h
  · simp at h
  · split at h
    · rename_i e' heq
      simp at h
      subst h
      exact getFieldE_error _ _ _ heq
    · split at h
      · simp at h
      · split at h
        · rename_i e' heq
          simp at h
          subst h
          exact getFieldE_error _ _ _ heq
        · split at h
          · simp at h
          · split at h
            · rename_i e' heq
              simp at h
              subst h
              exact getFieldE_error _ _ _ heq
            · split at h
              · simp at h
              · split at h
                · rename_i e' heq
                  simp at h
                  subst h
                  exact getFieldE_error _ _ _ heq
                · split at h
                  · rename_i e' heq
                    simp at h
                    subst h
                    exact filterTabsE_error _ _ heq
                  · simp at h
                · simp at h

lemma importLoop_error (entries : List (String × JSValue)) :
    ∀ (acc : List (String × JSValue) × Nat) (e : OpError),
      (importLoop acc entries = .error e) → e = .typeError := by
  induction entries with
  | nil => intro acc e h; simp [importLoop] at h
  | cons p ps ih =>
    intro acc e h
    rw [importLoop] at h
    split at h
    · rename_i err heq
      simp at h
      subst h
      exact importEntry_error _ _ _ heq
    · rename_i next heq
      exact ih next e h

lemma objectEntries_error (v : JSValue) (e : OpError)
    (h : objectEntries v = .error e) : e = .typeError := by
  cases v <;> simp [objectEntries] at h <;> exact h.symm

/-- Claim C5, counterexample: the payload `{ sessions: null }` is not
shaped as `{ sessions: mapping }` (its `sessions` field is `null`),
yet the import does not fail with `invalidFormatError`: `typeof null`
is `"object"`, so the guard passes and `Object.entries(null)` throws a
`TypeError` instead.  The store is still left unchanged. -/
theorem import_null_sessions_counterexample :
    (importSessionsJS [] (.obj [("sessions", .null)]) = ([], .error .typeError)) ∧
    OpError.typeError ≠ OpError.invalidFormatError :=
  ⟨rfl, by decide⟩

/-- Claim C5 (amended): the import fails with `invalidFormatError`
exactly when its guard rejects the payload — the payload is falsy, or
not of `typeof` `"object"`, or its `sessions` field is not of `typeof`
`"object"` (under which `null` and arrays count as objects, so a
`null` `sessions` field passes the guard and the enumeration throws a
`TypeError` instead); and every failure, of either kind, leaves the
persisted collection unchanged. -/
theorem import_guard (existing : List (String × JSValue)) (data : JSValue) :
    ((importSessionsJS existing data).2 = .error .invalidFormatError ↔
      (truthy data = false ∨ jsTypeof data ≠ "object" ∨
        jsTypeof (getField data "sessions") ≠ "object")) ∧
    (∀ e, (importSessionsJS existing data).2 = .error e →
      (importSessionsJS existing data).1 = existing) := by
  have hg : ((!truthy data || jsTypeof data != "object"
        || jsTypeof (getField data "sessions") != "object") = true) ↔
      (truthy data = false ∨ jsTypeof data ≠ "object" ∨
        jsTypeof (getField data "sessions") ≠ "object") := by
    simp [Bool.or_eq_true, bne_iff_ne, Bool.not_eq_true', or_assoc]
  constructor
  · rw [importSessionsJS]
    split
    · rename_i hguard
      exact ⟨fun _ => hg.mp hguard, fun _ => rfl⟩
    · rename_i hguard
      split
      · rename_i e' heq
        have he' : e' = .typeError := objectEntries_error _ _ heq
        constructor
        · intro hl
          simp [he'] at hl
        · intro hr
          exact absurd (hg.mpr hr) hguard
      · split
        · rename_i e' heq
          have he' : e' = .typeError := importLoop_error _ _ _ heq
          constructor
          · intro hl
            simp [he'] at hl
          · intro hr
            exact absurd (hg.mpr hr) hguard
        · constructor
          · intro hl
            simp at hl
          · intro hr
            exact absurd (hg.mpr hr) hguard
  · intro e
    rw [importSessionsJS]
    split
    · intro _; rfl
    · split
      · intro _; rfl
      · split
        · intro _; rfl
        · intro hl; simp at hl

/-- Witness for `import_guard` on a string payload (rejected by the
guard, store untouched). -/
theorem import_guard_witness :
    ((importSessionsJS [] (.str "nope")).2 = .error .invalidFormatError ↔
      (truthy (.str "nope") = false ∨ jsTypeof (.str "nope") ≠ "object" ∨
        jsTypeof (getField (.str "nope") "sessions") ≠ "object")) ∧
    (importSessionsJS [] (.str "nope")).1 = [] :=
  ⟨(import_guard [] (.str "nope")).1,
    (import_guard [] (.str "nope")).2 .invalidFormatError rfl⟩

end Orbit

namespace Orbit

/-! ## Export/import round-trip (C6) -/

lemma objGet_append_none (l : List (String × JSValue)) (x : String × JSValue) (k : String)
    (h : objGet l k = none) :
    objGet (l ++ [x]) k = if x.1 == k then some x.2 else none := by
  induction l with
  | nil => simp [objGet]
  | cons p ps ih =>
    rw [objGet] at h
    split at h
    · simp at h
    · rename_i hp
      rw [List.cons_append, objGet]
      rw [if_neg hp]
      exact ih h

lemma filterTabsE_encode (ts : List TabRecord) :
    filterTabsE (ts.map encodeTab) =
      .ok ((ts.filter (fun t => isSafeUrlStr t.url)).map encodeTab) := by
  induction ts with
  | nil => simp [filterTabsE]
  | cons t ts ih =>
    rw [List.map_cons, filterTabsE]
    have hu : getFieldE (encodeTab t) "url" = .ok (.str t.url) := rfl
    rw [hu, ih]
    by_cases hs : isSafeUrlStr t.url
    · have hcond : ((jsTypeof (.str t.url) == "string") && isSafeUrl (.str t.url)) = true := by
        simpa [jsTypeof, isSafeUrlStr] using hs
      simp [hcond, List.filter_cons, hs]
    · have hcond : ((jsTypeof (.str t.url) == "string") && isSafeUrl (.str t.url)) = false := by
        simpa [jsTypeof, isSafeUrlStr] using hs
      simp [hcond, List.filter_cons, hs]

lemma importEntry_encode (existing : List (String × JSValue)) (n : Nat) (id : String)
    (s : Session) (habs : objGet existing id = none) :
    (importEntry (existing, n) (id, encodeSession s)) =
      .ok (existing ++
        [(id, encodeSession { s with tabs := s.tabs.filter (fun t => isSafeUrlStr t.url) })],
        n + 1) := by
  rw [importEntry]
  rw [show ((objGet (existing, n).1 (id, encodeSession s).1).getD .undefined) = JSValue.undefined by
    simp [habs]]
  rw [if_neg (by simp [truthy])]
  have h1 : getFieldE (id, encodeSession s).2 "id" = .ok (.str s.id) := rfl
  have h2 : getFieldE (id, encodeSession s).2 "name" = .ok (.str s.name) := rfl
  have h3 : getFieldE (id, encodeSession s).2 "createdAt" = .ok (.number s.createdAt) := rfl
  have h4 : getFieldE (id, encodeSession s).2 "tabs" = .ok (.arr (s.tabs.map encodeTab)) := rfl
  rw [h1]
  simp only [jsTypeof, bne_self_eq_false, Bool.false_eq_true, if_false, if_neg]
  rw [h2]
  simp only [jsTypeof, bne_self_eq_false, Bool.false_eq_true, if_false, if_neg]
  rw [h3]
  simp only [jsTypeof, bne_self_eq_false, Bool.false_eq_true, if_false, if_neg]
  rw [h4]
  dsimp only
  rw [filterTabsE_encode]
  rfl

lemma importLoop_encode (coll : Sessions) :
    ∀ (existing : List (String × JSValue)) (n : Nat),
      (∀ p ∈ coll, objGet existing p.1 = none) → (coll.map Prod.fst).Nodup →
      (importLoop (existing, n) (coll.map (fun p => (p.1, encodeSession p.2)))) =
        .ok (existing ++ coll.map (fun p =>
              (p.1, encodeSession
                { p.2 with tabs := p.2.tabs.filter (fun t => isSafeUrlStr t.url) })),
          n + coll.length) := by
  induction coll with
  | nil =>
    intro existing n _ _
    simp [importLoop]
  | cons p ps ih =>
    intro existing n habs hnd
    rw [List.map_cons, importLoop]
    rw [importEntry_encode existing n p.1 p.2 (habs p (List.mem_cons_self p ps))]
    dsimp only
    have hnd' : (ps.map Prod.fst).Nodup := (List.nodup_cons.mp hnd).2
    have hhead : p.1 ∉ ps.map Prod.fst := (List.nodup_cons.mp hnd).1
    have habs' : ∀ q ∈ ps, objGet (existing ++
        [(p.1, encodeSession
          { p.2 with tabs := p.2.tabs.filter (fun t => isSafeUrlStr t.url) })]) q.1 = none := by
      intro q hq
      rw [objGet_append_none _ _ _ (habs q (List.mem_cons_of_mem p hq))]
      have : p.1 ≠ q.1 := by
        intro hcontra
        exact hhead (hcontra ▸ List.mem_map_of_mem Prod.fst hq)
      simp [this]
    rw [ih _ (n + 1) habs' hnd']
    have harith : n + 1 + ps.length = n + (ps.length + 1) := by omega
    simp [List.append_assoc, harith]

/-- Claim C6: exporting a collection of well-formed sessions and then
merging the payload into an empty store succeeds and reproduces the
collection exactly — same ids in the same order, with each session's
id, name and createdAt intact and its tabs replaced by the safe-filter
of its original tabs — returning an imported count equal to the number
of sessions. -/
theorem export_import_roundtrip (coll : Sessions) (hnd : (coll.map Prod.fst).Nodup) :
    (importSessionsJS [] (exportPayload coll)) =
      (coll.map (fun p =>
        (p.1, encodeSession { p.2 with tabs := p.2.tabs.filter (fun t => isSafeUrlStr t.url) })),
       .ok coll.length) := by
  have hguard : (!truthy (exportPayload coll) || jsTypeof (exportPayload coll) != "object"
      || jsTypeof (getField (exportPayload coll) "sessions") != "object") = false := rfl
  have hent : objectEntries (getField (exportPayload coll) "sessions") =
      .ok (coll.map (fun p => (p.1, encodeSession p.2))) := rfl
  rw [importSessionsJS, if_neg (by rw [hguard]; simp), hent]
  dsimp only
  rw [importLoop_encode coll [] 0 (fun p _ => rfl) hnd]
  simp

/-- Witness for `export_import_roundtrip` on a one-session collection
holding one safe and one unsafe tab. -/
theorem export_import_roundtrip_witness :
    ([("i1", (⟨"i1", "Work", 5, [⟨"https://a.com", "A"⟩, ⟨"chrome://x", "C"⟩]⟩ : Session))].map
      Prod.fst).Nodup ∧
    (importSessionsJS []
        (exportPayload [("i1", ⟨"i1", "Work", 5, [⟨"https://a.com", "A"⟩, ⟨"chrome://x", "C"⟩]⟩)])) =
      ([("i1", encodeSession ⟨"i1", "Work", 5, [⟨"https://a.com", "A"⟩]⟩)], .ok 1) :=
  ⟨by decide,
    export_import_roundtrip
      [("i1", ⟨"i1", "Work", 5, [⟨"https://a.com", "A"⟩, ⟨"chrome://x", "C"⟩]⟩)] (by decide)⟩

end Orbit

namespace Orbit

/-! ## Pointer referential integrity (C8) -/

lemma isSome_findSession_setKey (ss : Sessions) (k id : String) (v : Session)
    (h : (findSession ss id).isSome) : (findSession (setKey ss k v) id).isSome := by
  by_cases hik : id = k
  · subst hik
    rw [findSession_setKey]
    rfl
  · rw [findSession_setKey_ne _ _ _ _ hik]
    exact h

lemma findSession_append_isSome (l1 l2 : Sessions) (id : String)
    (h : (findSession l1 id).isSome) : (findSession (l1 ++ l2) id).isSome := by
  induction l1 with
  | nil => simp [findSession] at h
  | cons p ps ih =>
    rw [findSession] at h
    rw [List.cons_append, findSession]
    cases hb : (p.1 == id) with
    | true => rfl
    | false =>
      rw [if_neg (by simp [hb])] at h
      rw [if_neg (by simp [hb])]
      exact ih h

lemma importTyped_foldl (l : List (String × Session)) :
    ∀ (acc : Sessions × Nat),
      ∃ extra, (l.foldl (fun (acc : Sessions × Nat) (p : String × Session) =>
        if acc.1.any (fun q => q.1 == p.1) then acc
        else (acc.1 ++
          [(p.1, { p.2 with tabs := p.2.tabs.filter (fun t => isSafeUrlStr t.url) })],
          acc.2 + 1)) acc).1 = acc.1 ++ extra := by
  induction l with
  | nil =>
    intro acc
    exact ⟨[], by simp⟩
  | cons p ps ih =>
    intro acc
    rw [List.foldl_cons]
    by_cases hc : acc.1.any (fun q => q.1 == p.1)
    · rw [if_pos hc]
      exact ih acc
    · rw [if_neg hc]
      obtain ⟨extra, he⟩ := ih
        (acc.1 ++ [(p.1, { p.2 with tabs := p.2.tabs.filter (fun t => isSafeUrlStr t.url) })],
          acc.2 + 1)
      exact ⟨_, by rw [he, List.append_assoc]⟩

lemma step_pointerOk {a b : Store} (hstep : Step a b) (h : pointerOk a) : pointerOk b := by
  cases hstep with
  | getAll => exact h
  | exportAll => exact h
  | save name live env =>
    dsimp only [saveSession]
    split
    · exact h
    · split
      · exact h
      · intro id hid
        exact isSome_findSession_setKey _ _ _ _ (h id hid)
  | restore sid close cur =>
    dsimp only [restoreSession]
    split
    · exact h
    · rename_i session heq
      split
      · exact h
      · intro id hid
        obtain rfl : sid = id := by simpa using hid
        rw [heq]
        rfl
  | update sid live =>
    dsimp only [updateSession]
    split
    · exact h
    · split
      · exact h
      · intro id hid
        exact isSome_findSession_setKey _ _ _ _ (h id hid)
  | del sid =>
    dsimp only [deleteSession]
    split
    · exact h
    · intro id hid
      simp only at hid
      split at hid
      · exact absurd hid (by simp)
      · rename_i hne
        have hids : id ≠ sid := by
          intro hcontra
          exact hne (hcontra ▸ hid)
        rw [findSession_eraseKey_ne _ _ _ hids]
        exact h id hid
  | rename sid n =>
    dsimp only [renameSession]
    split
    · exact h
    · split
      · exact h
      · intro id hid
        exact isSome_findSession_setKey _ _ _ _ (h id hid)
  | importMerge payload =>
    intro id hid
    obtain ⟨extra, he⟩ := importTyped_foldl payload (a.sessions, 0)
    dsimp only [importSessionsTyped] at hid ⊢
    rw [he]
    exact findSession_append_isSome _ _ _ (h id hid)

lemma delete_clears_pointer (st : Store) (id : String)
    (hok : (deleteSession st id).2 = .ok ()) :
    findSession (deleteSession st id).1.sessions id = none ∧
    (st.activeSessionId = some id → (deleteSession st id).1.activeSessionId = none ∧
      (getSessions (deleteSession st id).1).2.2 = none) ∧
    (st.activeSessionId ≠ some id →
      (deleteSession st id).1.activeSessionId = st.activeSessionId) := by
  dsimp only [deleteSession] at hok ⊢
  cases hf : findSession st.sessions id with
  | none =>
    rw [hf] at hok
    simp at hok
  | some s =>
    dsimp only
    refine ⟨findSession_eraseKey _ _, ?_, ?_⟩
    · intro ha
      rw [if_pos ha]
      exact ⟨rfl, rfl⟩
    · intro ha
      rw [if_neg ha]

/-- Claim C8: in every state reachable by the eight store operations
the Active Session Pointer is absent or names a session present in
the collection; a successful delete removes the addressed session,
clears the pointer when it pointed at that session (so a following
`getSessions` reports no active session), and leaves it unchanged
otherwise. -/
theorem active_pointer_integrity (st : Store) (hr : Reachable st) :
    pointerOk st ∧
    (∀ id, (deleteSession st id).2 = .ok () →
      findSession (deleteSession st id).1.sessions id = none ∧
      (st.activeSessionId = some id → (deleteSession st id).1.activeSessionId = none ∧
        (getSessions (deleteSession st id).1).2.2 = none) ∧
      (st.activeSessionId ≠ some id →
        (deleteSession st id).1.activeSessionId = st.activeSessionId)) := by
  constructor
  · induction hr with
    | refl =>
      intro id hid
      simp at hid
    | tail hsteps hstep ih => exact step_pointerOk hstep ih
  · intro id hok
    exact delete_clears_pointer st id hok

/-- Witness for `active_pointer_integrity` on a store reached by an
incoming merge followed by a restore, then deleting the pointed-to
session. -/
theorem active_pointer_integrity_witness :
    pointerOk ⟨[("a", ⟨"a", "N", 0, [⟨"https://a.com", "A"⟩]⟩)], some "a"⟩ ∧
    findSession
      (deleteSession ⟨[("a", ⟨"a", "N", 0, [⟨"https://a.com", "A"⟩]⟩)], some "a"⟩ "a").1.sessions
      "a" = none ∧
    (deleteSession ⟨[("a", ⟨"a", "N", 0, [⟨"https://a.com", "A"⟩]⟩)], some "a"⟩
      "a").1.activeSessionId = none :=
  have hreach : Reachable ⟨[("a", ⟨"a", "N", 0, [⟨"https://a.com", "A"⟩]⟩)], some "a"⟩ :=
    Relation.ReflTransGen.tail
      (Relation.ReflTransGen.tail Relation.ReflTransGen.refl
        (Step.importMerge ⟨[], none⟩ [("a", ⟨"a", "N", 0, [⟨"https://a.com", "A"⟩]⟩)]))
      (Step.restore ⟨[("a", ⟨"a", "N", 0, [⟨"https://a.com", "A"⟩]⟩)], none⟩ "a" false [])
  have h := active_pointer_integrity
    ⟨[("a", ⟨"a", "N", 0, [⟨"https://a.com", "A"⟩]⟩)], some "a"⟩ hreach
  ⟨h.1, (h.2 "a" rfl).1, ((h.2 "a" rfl).2.1 rfl).1⟩

end Orbit
